import Mathlib

/-!
A shallow embedding of the `backend` Express server (`src/server.js`, the
canonical variant of the three near-duplicate sources) and proofs about its
routes: `/redirect`, `/logout`, `/me` and `POST /fetch-emails`, together with
the Gemini analysis helper `getGeminiAnalysis` and the `Promise.all` fan-out
used by the enrichment pipeline.

External I/O (MSAL token calls, the Graph mail fetch, the Gemini call) is
modelled at the boundary: each upstream outcome is an explicit input to the
handler, and the handler's response, session, log output and outgoing calls
are explicit outputs.
-/

namespace Backend

/-- JSON values, modelling the values produced by the JavaScript `JSON.parse`
builtin. Objects keep their fields in textual order. -/
inductive Json where
  | null : Json
  | bool (b : Bool) : Json
  | num (n : Int) : Json
  | str (s : String) : Json
  | arr (items : List Json) : Json
  | obj (entries : List (String × Json)) : Json
deriving Repr

mutual

/-- Structural equality test for `Json`. -/
def Json.beq : Json → Json → Bool
  | .null, .null => true
  | .bool a, .bool b => a == b
  | .num a, .num b => a == b
  | .str a, .str b => a == b
  | .arr xs, .arr ys => Json.beqList xs ys
  | .obj xs, .obj ys => Json.beqFields xs ys
  | _, _ => false

/-- Structural equality test for lists of `Json`. -/
def Json.beqList (a b : List Json) : Bool :=
  match a, b with
  | hd :: tl, hd2 :: tl2 => Json.beq hd hd2 && Json.beqList tl tl2
  | [], [] => true
  | _, _ => false

/-- Structural equality test for `Json` object field lists. -/
def Json.beqFields (a b : List (String × Json)) : Bool :=
  match a, b with
  | (k, v) :: tl, (k2, v2) :: tl2 => k == k2 && Json.beq v v2 && Json.beqFields tl tl2
  | [], [] => true
  | _, _ => false

end

mutual

theorem Json.beq_iff : ∀ u v : Json, (Json.beq u v) = true ↔ u = v
  | .obj fs1, .obj fs2 => by
    have h := Json.beqFields_iff fs1 fs2
    simp only [Json.beq, Json.obj.injEq]
    exact h
  | .arr l1, .arr l2 => by
    have h := Json.beqList_iff l1 l2
    simp only [Json.beq, Json.arr.injEq]
    exact h
  | .str u, .str v => by simp [Json.beq]
  | .num u, .num v => by simp [Json.beq]
  | .bool u, .bool v => by simp [Json.beq]
  | .null, .null => by simp [Json.beq]
  | .null, .bool _ | .null, .num _ | .null, .str _ | .null, .arr _ | .null, .obj _
  | .bool _, .null | .bool _, .num _ | .bool _, .str _ | .bool _, .arr _ | .bool _, .obj _
  | .num _, .null | .num _, .bool _ | .num _, .str _ | .num _, .arr _ | .num _, .obj _
  | .str _, .null | .str _, .bool _ | .str _, .num _ | .str _, .arr _ | .str _, .obj _
  | .arr _, .null | .arr _, .bool _ | .arr _, .num _ | .arr _, .str _ | .arr _, .obj _
  | .obj _, .null | .obj _, .bool _ | .obj _, .num _ | .obj _, .str _ | .obj _, .arr _ => by
    simp [Json.beq]

theorem Json.beqList_iff : ∀ l1 l2 : List Json, (Json.beqList l1 l2) = true ↔ l1 = l2
  | hd :: tl, hd2 :: tl2 => by
    have h1 := Json.beq_iff hd hd2
    have h2 := Json.beqList_iff tl tl2
    simp only [Json.beqList, Bool.and_eq_true, List.cons.injEq]
    exact and_congr h1 h2
  | [], hd :: tl => by simp [Json.beqList]
  | hd :: tl, [] => by simp [Json.beqList]
  | [], [] => by simp [Json.beqList]

theorem Json.beqFields_iff :
    ∀ fs1 fs2 : List (String × Json), (Json.beqFields fs1 fs2) = true ↔ fs1 = fs2
  | (k, v) :: tl, (k2, v2) :: tl2 => by
    have h1 := Json.beq_iff v v2
    have h2 := Json.beqFields_iff tl tl2
    simp only [Json.beqFields, Bool.and_eq_true, List.cons.injEq, Prod.mk.injEq, beq_iff_eq,
      and_assoc]
    exact and_congr Iff.rfl (and_congr h1 h2)
  | [], hd :: tl => by simp [Json.beqFields]
  | hd :: tl, [] => by simp [Json.beqFields]
  | [], [] => by simp [Json.beqFields]

end

instance : DecidableEq Json := fun a b =>
  decidable_of_iff (Json.beq a b = true) (Json.beq_iff a b)

/-- Whitespace characters skipped by the JSON parser and by `String.trim`
in JavaScript (modelled on the common cases). -/
def jsWhitespace (c : Char) : Bool :=
  c = ' ' || c = '\n' || c = '\t' || c = '\r'

/-- Skip leading JSON whitespace. -/
def skipWs (s : List Char) : List Char :=
  s.dropWhile jsWhitespace

/-- Model of the JavaScript `String.prototype.trim`: strip leading and
trailing whitespace. -/
def jsTrim (s : List Char) : List Char :=
  ((s.dropWhile jsWhitespace).reverse.dropWhile jsWhitespace).reverse

/-- If `pat` is a leading segment of `s`, return the remainder of `s`
after it. -/
def dropPattern : List Char → List Char → Option (List Char)
  | [], s => some s
  | _ :: _, [] => none
  | p :: ps, c :: cs => if p = c then dropPattern ps cs else none

/-- Model of the JavaScript global-regex literal replace
`s.replace(/pat/g, repl)`: replace every non-overlapping occurrence of
`pat` left to right, never rescanning replaced text. Fuel-bounded; the fuel
`s.length + 1` used by `replaceAllStr` is enough for nonempty patterns. -/
def replaceAllAux (pat repl : List Char) : Nat → List Char → List Char
  | 0, s => s
  | _ + 1, [] => []
  | fuel + 1, c :: cs =>
    match dropPattern pat (c :: cs) with
    | some rest => repl ++ replaceAllAux pat repl fuel rest
    | none => c :: replaceAllAux pat repl fuel cs

/-- `String`-level wrapper for `replaceAllAux`. -/
def replaceAllStr (s pat repl : String) : String :=
  String.mk (replaceAllAux pat.data repl.data (s.length + 1) s.data)

/-- The supported single-character JSON string escapes, as pairs of the
escape letter and the decoded character (`\uXXXX` escapes are not modelled
and make the parse fail). -/
def escapeTable : List (Char × Char) :=
  [('"', '"'), ('\\', '\\'), ('/', '/'), ('n', '\n'), ('t', '\t'), ('r', '\r'),
   ('b', Char.ofNat 8), ('f', Char.ofNat 12)]

/-- Decode a single-character JSON string escape via `escapeTable`. -/
def escapeChar (e : Char) : Option Char :=
  escapeTable.lookup e

/-- Parse the body of a JSON string literal, after the opening quote.
Returns the decoded characters and the input after the closing quote. -/
def parseStringChars : List Char → Option (List Char × List Char)
  | [] => none
  | '"' :: cs => some ([], cs)
  | '\\' :: [] => none
  | '\\' :: e :: cs =>
    match escapeChar e with
    | none => none
    | some ec => (parseStringChars cs).map (fun r => (ec :: r.1, r.2))
  | c :: cs => (parseStringChars cs).map (fun r => (c :: r.1, r.2))

/-- Parse a JSON string literal including its opening quote. -/
def parseStringLit : List Char → Option (String × List Char)
  | '"' :: cs => (parseStringChars cs).map (fun r => (String.mk r.1, r.2))
  | _ => none

/-- The numeric value of a decimal digit character. -/
def digitVal (d : Char) : Nat :=
  d.toNat - '0'.toNat

/-- Parse a JSON number (integer part only; fractions and exponents are not
modelled and make the parse fail). -/
def parseNumberFrom (input : List Char) : Option (Json × List Char) :=
  let core := fun (s : List Char) (neg : Bool) =>
    let digits := s.takeWhile Char.isDigit
    let rest := s.dropWhile Char.isDigit
    if digits = [] then none
    else
      match rest with
      | '.' :: _ => none
      | 'e' :: _ => none
      | 'E' :: _ => none
      | _ =>
        let n : Nat := digits.foldl (fun sofar d => 10 * sofar + digitVal d) 0
        some (Json.num (if neg then -(n : Int) else (n : Int)), rest)
  match input with
  | '-' :: rest => core rest true
  | _ => core input false

mutual

/-- Fuel-bounded recursive-descent JSON value parser, modelling the
JavaScript `JSON.parse` builtin on the fragment this server exercises. -/
def parseValue : Nat → List Char → Option (Json × List Char)
  | 0, _ => none
  | fuel + 1, input =>
    match skipWs input with
    | [] => none
    | c :: rest =>
      if c = '\x7b' then
        match skipWs rest with
        | '\x7d' :: rest2 => some (Json.obj [], rest2)
        | _ =>
          match parseMembers fuel rest with
          | some (ms, r) => some (Json.obj ms, r)
          | none => none
      else if c = '[' then
        match skipWs rest with
        | ']' :: rest2 => some (Json.arr [], rest2)
        | _ =>
          match parseElems fuel rest with
          | some (es, r) => some (Json.arr es, r)
          | none => none
      else if c = '"' then
        match parseStringChars rest with
        | some (out, r) => some (Json.str (String.mk out), r)
        | none => none
      else if c = 't' then
        match dropPattern ['r', 'u', 'e'] rest with
        | some r => some (Json.bool true, r)
        | none => none
      else if c = 'f' then
        match dropPattern ['a', 'l', 's', 'e'] rest with
        | some r => some (Json.bool false, r)
        | none => none
      else if c = 'n' then
        match dropPattern ['u', 'l', 'l'] rest with
        | some r => some (Json.null, r)
        | none => none
      else
        parseNumberFrom (c :: rest)

/-- Parse one or more `"key": value` members of a JSON object, up to and
including the closing brace. -/
def parseMembers : Nat → List Char → Option (List (String × Json) × List Char)
  | 0, _ => none
  | fuel + 1, input =>
    match parseStringLit (skipWs input) with
    | none => none
    | some (key, rest1) =>
      match skipWs rest1 with
      | ':' :: rest2 =>
        match parseValue fuel rest2 with
        | none => none
        | some (v, rest3) =>
          match skipWs rest3 with
          | ',' :: rest4 =>
            match parseMembers fuel rest4 with
            | some (ms, rest5) => some ((key, v) :: ms, rest5)
            | none => none
          | '\x7d' :: rest4 => some ([(key, v)], rest4)
          | _ => none
      | _ => none

/-- Parse one or more elements of a JSON array, up to and including the
closing bracket. -/
def parseElems : Nat → List Char → Option (List Json × List Char)
  | 0, _ => none
  | fuel + 1, input =>
    match parseValue fuel input with
    | none => none
    | some (v, rest1) =>
      match skipWs rest1 with
      | ',' :: rest2 =>
        match parseElems fuel rest2 with
        | some (es, rest3) => some (v :: es, rest3)
        | none => none
      | ']' :: rest2 => some ([v], rest2)
      | _ => none

end

/-- Model of the JavaScript `JSON.parse`: parse a complete JSON document,
requiring that only whitespace follows the value. -/
def parseJson (s : String) : Option Json :=
  match parseValue (s.length + 2) s.data with
  | some (j, rest) => if skipWs rest = [] then some j else none
  | none => none

/-- The fixed fallback analysis record returned by `getGeminiAnalysis` when
its try-block fails (`src/server.js` line 72). -/
def fallbackAnalysis : Json :=
  Json.obj [("summary", Json.str "AI analysis failed."),
            ("actionItems", Json.arr []),
            ("sentiment", Json.str "Neutral"),
            ("docType", Json.str "Unknown")]

/-- A failure inside the try-block of `getGeminiAnalysis`: either the
upstream `generateContent`/`response.text()` call threw, or `JSON.parse`
threw on the cleaned response text. -/
inductive GeminiFailure where
  | callError (msg : String) : GeminiFailure
  | parseError (input : String) : GeminiFailure
deriving DecidableEq, Repr

/-- A failure of `acquireTokenSilent` in `POST /fetch-emails`:
`interactionRequired` models `msal.InteractionRequiredAuthError`, `other`
models every other thrown token error. -/
inductive TokenError where
  | interactionRequired (msg : String) : TokenError
  | other (msg : String) : TokenError
deriving DecidableEq, Repr

/-- A failure of the upstream Graph mail fetch (network/5xx or 4xx). -/
inductive MailError where
  | unavailable (msg : String) : MailError
  | rejected (msg : String) : MailError
deriving DecidableEq, Repr

/-- A failure of `pca.acquireTokenByCode` in the `/redirect` handler. -/
structure ExchangeError where
  msg : String
deriving DecidableEq, Repr

/-- The error caught by the catch-block of `POST /fetch-emails`: the first
throw out of the token call or the mail fetch. -/
inductive FetchError where
  | tokenErr (e : TokenError) : FetchError
  | mailErr (e : MailError) : FetchError
deriving DecidableEq, Repr

/-- Model of the `error instanceof msal.InteractionRequiredAuthError` test
(`src/server.js` line 149): only an interaction-required token error is an
instance of that class. -/
def isInteractionRequiredError : FetchError → Bool
  | .tokenErr (.interactionRequired _) => true
  | _ => false

/-- One entry of console output. Each constructor carries exactly the data
the corresponding `console.log`/`console.error` call writes. -/
inductive LogEntry where
  | message (s : String) : LogEntry
  | geminiApiError (e : GeminiFailure) : LogEntry
  | fetchHandlerError (e : FetchError) : LogEntry
  | redirectHandlerError (e : ExchangeError) : LogEntry
deriving DecidableEq, Repr

/-- The fence-stripping and trimming applied to the Gemini response text
(`src/server.js` line 68): delete every occurrence of three-backtick-json,
then every remaining triple backtick, then trim. -/
def cleanGeminiText (text : String) : String :=
  String.mk (jsTrim (replaceAllStr (replaceAllStr text "```json" "") "```" "").data)

/-- The try-block of `getGeminiAnalysis` (`src/server.js` lines 64-69). The
upstream call outcome is the input: `Except.error` is a thrown call error
carrying its message, `Except.ok` carries the response text. -/
def geminiTryBlock (call : Except String String) : Except GeminiFailure Json :=
  match call with
  | .error m => .error (.callError m)
  | .ok text =>
    let jsonString := cleanGeminiText text
    match parseJson jsonString with
    | some j => .ok j
    | none => .error (.parseError jsonString)

/-- `getGeminiAnalysis` (`src/server.js` lines 48-74): returns the parsed
JSON of the cleaned response text, or the fixed fallback record when the
try-block throws; also returns its console output. -/
def getGeminiAnalysis (call : Except String String) : Json × List LogEntry :=
  let logs0 := [LogEntry.message "Sending content to Gemini for real analysis..."]
  match geminiTryBlock call with
  | .ok j => (j, logs0)
  | .error e => (fallbackAnalysis, logs0 ++ [LogEntry.geminiApiError e])

/-- The `body` field of a Graph mail item (only `content` is used). -/
structure MailBody where
  content : String
deriving DecidableEq, Repr, Inhabited

/-- A mail item as selected from Graph:
`id,subject,from,receivedDateTime,body`. -/
structure MailItem where
  id : String
  subject : String
  «from» : String
  receivedDateTime : String
  body : MailBody
deriving DecidableEq, Repr, Inhabited

/-- Model of `content.replace(/<[^>]*>?/gm, '')` (`src/server.js` line 141):
each `<` starts a match that greedily takes non-`>` characters and an
optional closing `>`; matches are deleted. Fuel-bounded; `s.length + 1`
fuel is enough since every step consumes at least one character. -/
def stripTagsAux : Nat → List Char → List Char
  | 0, s => s
  | _ + 1, [] => []
  | fuel + 1, c :: cs =>
    if c = '<' then
      match cs.dropWhile (fun d => d ≠ '>') with
      | '>' :: rest => stripTagsAux fuel rest
      | rest => stripTagsAux fuel rest
    else
      c :: stripTagsAux fuel cs

/-- `String`-level wrapper for `stripTagsAux`. -/
def stripTags (s : String) : String :=
  String.mk (stripTagsAux (s.length + 1) s.data)

/-- The text sent to Gemini for one mail item (`src/server.js`
lines 141-142). -/
def contentToAnalyze (email : MailItem) : String :=
  "Subject: " ++ email.subject ++ "\nBody: " ++ stripTags email.body.content

/-- One element of the `POST /fetch-emails` response array: the mail item's
fields spread together with the added `analysis` field
(`\x7b...email, analysis\x7d`, `src/server.js` line 144). -/
structure EnrichedEmail where
  email : MailItem
  analysis : Json
deriving DecidableEq, Repr

/-- The per-item enrichment closure (`src/server.js` lines 140-145):
clean the body, build the content, analyze it, and pair the item with its
analysis; also returns the console output of the analysis call. The Gemini
service is an explicit input mapping the sent content to the upstream
call outcome. -/
def enrichEmail (gemini : String → Except String String) (email : MailItem) :
    EnrichedEmail × List LogEntry :=
  let r := getGeminiAnalysis (gemini (contentToAnalyze email))
  ({ email := email, analysis := r.1 }, r.2)

/-- The Graph request built by `POST /fetch-emails`
(`src/server.js` lines 135-138). -/
structure MailRequest where
  path : String
  select : String
  top : Nat
  search : Option String
deriving DecidableEq, Repr

/-- The fixed scope list (`src/server.js` line 41). -/
def scopes : List String :=
  ["Mail.Read", "User.Read", "offline_access"]

/-- Request building of `POST /fetch-emails` (`src/server.js`
lines 135-138): select and page size are fixed; the search clause is added
only when `searchQuery` is truthy (present and nonempty), and wraps the
filter text in double quotes. -/
def buildMessagesRequest (searchQuery : Option String) : MailRequest :=
  let base : MailRequest :=
    { path := "/me/messages", select := "id,subject,from,receivedDateTime,body",
      top := 10, search := none }
  match searchQuery with
  | some q => if q = "" then base else { base with search := some ("\"" ++ q ++ "\"") }
  | none => base

/-- The MSAL account record stored in the session (`response.account`). -/
structure Account where
  homeAccountId : String
  username : String
  name : String
deriving DecidableEq, Repr

/-- Server-side session state: either anonymous or holding one account. -/
structure Session where
  account : Option Account
deriving DecidableEq, Repr

/-- The `acquireTokenSilent` success payload (only `accessToken` is read). -/
structure TokenResponse where
  accessToken : String
deriving DecidableEq, Repr

/-- The `acquireTokenByCode` success payload: the account stored in the
session plus the access token the handler never touches. -/
structure AuthCodeResult where
  account : Account
  accessToken : String
deriving DecidableEq, Repr

/-- An outgoing call made by a handler, with the data handed to it. -/
inductive Call where
  | acquireTokenSilent (account : Account) (requestScopes : List String) : Call
  | acquireTokenByCode (code : Option String) (requestScopes : List String) : Call
  | graphGet (request : MailRequest) (accessToken : String) : Call
  | geminiGenerate (content : String) : Call
deriving DecidableEq, Repr

/-- A response body: plain text, the `/me` JSON, the enriched-email array
of `POST /fetch-emails`, or the raw exchange error sent by `/redirect`. -/
inductive ResponseBody where
  | text (s : String) : ResponseBody
  | meJson (loggedIn : Bool) (account : Option Account) : ResponseBody
  | emailsJson (emails : List EnrichedEmail) : ResponseBody
  | exchangeFailure (e : ExchangeError) : ResponseBody
deriving DecidableEq, Repr

/-- Everything a handler produces: HTTP status and body, the session state
after the handler, its console output, and its outgoing calls. -/
structure HandlerResult where
  status : Nat
  body : ResponseBody
  session : Session
  logs : List LogEntry
  calls : List Call
deriving DecidableEq, Repr

/-- The upstream environment of one `POST /fetch-emails` request: the
outcome of the silent token call, the mail responses as a function of the
built request, and the Gemini outcomes as a function of the sent content.
Holding the environment fixed across runs models one fixed external
world. -/
structure FetchEnv where
  tokenResult : Except TokenError TokenResponse
  fetchMail : MailRequest → Except MailError (List MailItem)
  gemini : String → Except String String

/-- The `POST /fetch-emails` handler (`src/server.js` lines 125-155).
The single JavaScript catch-block is applied at each throw site (the
token call and the mail fetch), which is equivalent since the try-block
exits at the first throw; per-item analysis never throws. Analysis logs
are listed in fetch order (interleaving is not modelled). -/
def fetchEmailsHandler (st : Session) (searchQuery : Option String)
    (env : FetchEnv) : HandlerResult :=
  match st.account with
  | none =>
    { status := 401, body := .text "User not authenticated.", session := st,
      logs := [], calls := [] }
  | some account =>
    match env.tokenResult with
    | .error e =>
      let fe := FetchError.tokenErr e
      if isInteractionRequiredError fe then
        { status := 401, body := .text "Session expired. Please log in again.",
          session := st, logs := [], calls := [.acquireTokenSilent account scopes] }
      else
        { status := 500, body := .text "Error fetching or analyzing emails.",
          session := st, logs := [.fetchHandlerError fe],
          calls := [.acquireTokenSilent account scopes] }
    | .ok tokenResponse =>
      let accessToken := tokenResponse.accessToken
      let request := buildMessagesRequest searchQuery
      match env.fetchMail request with
      | .error e =>
        let fe := FetchError.mailErr e
        if isInteractionRequiredError fe then
          { status := 401, body := .text "Session expired. Please log in again.",
            session := st, logs := [],
            calls := [.acquireTokenSilent account scopes, .graphGet request accessToken] }
        else
          { status := 500, body := .text "Error fetching or analyzing emails.",
            session := st, logs := [.fetchHandlerError fe],
            calls := [.acquireTokenSilent account scopes, .graphGet request accessToken] }
      | .ok messages =>
        let results := messages.map (enrichEmail env.gemini)
        { status := 200, body := .emailsJson (results.map Prod.fst), session := st,
          logs := (results.map Prod.snd).flatten,
          calls := [.acquireTokenSilent account scopes, .graphGet request accessToken]
            ++ messages.map (fun e => Call.geminiGenerate (contentToAnalyze e)) }

/-- The `/redirect` handler (`src/server.js` lines 95-107). The code
exchange outcome is an explicit input; on success the produced account is
written to the session and a window-closing script is sent; on failure a
500 carries the raw error. -/
def redirectHandler (st : Session) (code : Option String)
    (exchangeResult : Except ExchangeError AuthCodeResult) : HandlerResult :=
  match exchangeResult with
  | .ok r =>
    { status := 200, body := .text "<script>window.close();</script>",
      session := { st with account := some r.account },
      logs := [], calls := [.acquireTokenByCode code scopes] }
  | .error e =>
    { status := 500, body := .exchangeFailure e, session := st,
      logs := [.redirectHandlerError e], calls := [.acquireTokenByCode code scopes] }

/-- The `/me` handler (`src/server.js` lines 117-123). -/
def meHandler (st : Session) : HandlerResult :=
  match st.account with
  | some a =>
    { status := 200, body := .meJson true (some a), session := st, logs := [], calls := [] }
  | none =>
    { status := 200, body := .meJson false none, session := st, logs := [], calls := [] }

/-- The `/logout` handler (`src/server.js` lines 111-115):
`req.session.destroy` then a 200. -/
def logoutHandler (_st : Session) : HandlerResult :=
  { status := 200, body := .text "Successfully logged out",
    session := { account := none }, logs := [], calls := [] }

/-- One completion step of the `Promise.all` fan-out: task `i` finishes and
writes its result into slot `i` of the result array. -/
def completeTask (r : Nat → α) (slots : List (Option α)) (i : Nat) : List (Option α) :=
  slots.set i (some (r i))

/-- Read off an array of result slots; defined only when every slot has
been filled. -/
def sequenceOpt : List (Option α) → Option (List α)
  | [] => some []
  | none :: _ => none
  | some v :: rest => (sequenceOpt rest).map (fun vs => v :: vs)

/-- Model of `Promise.all` over `n` tasks with per-task results `r`: the
tasks finish in the order listed by `schedule`, each writing its own slot of
an initially empty result array; the settled array is then read off in slot
order. -/
def runPromiseAll (r : Nat → α) (n : Nat) (schedule : List Nat) : Option (List α) :=
  sequenceOpt (schedule.foldl (completeTask r) (List.replicate n none))

theorem foldl_completeTask_getElem? (r : Nat → α) :
    ∀ (schedule : List Nat) (slots : List (Option α)) (j : Nat),
      (schedule.foldl (completeTask r) slots)[j]?
        = if j ∈ schedule ∧ j < slots.length then some (some (r j)) else slots[j]?
  | [], slots, j => by simp
  | i :: tl, slots, j => by
    rw [List.foldl_cons]
    show (tl.foldl (completeTask r) (slots.set i (some (r i))))[j]? = _
    rw [foldl_completeTask_getElem? r tl (slots.set i (some (r i))) j]
    rw [List.length_set, List.getElem?_set]
    by_cases h1 : j ∈ tl <;> by_cases h2 : j < slots.length <;> by_cases h3 : i = j <;>
      simp only [h1, h2, h3, List.mem_cons, true_and, true_or, or_true, and_true, false_and,
        and_false, if_true, if_false, ite_true, ite_false, or_false, false_or,
        iff_true, iff_false, not_false_iff, eq_self_iff_true] <;>
      first
        | rfl
        | (rw [if_neg (by omega), if_pos rfl])
        | (rw [if_pos h3, if_pos (h3 ▸ h2)])
        | (rw [if_neg h3])
        | (rw [if_neg fun h => h3 h.symm])
        | (rw [List.getElem?_eq_none (by omega)])

theorem foldl_completeTask_eq_map (r : Nat → α) (n : Nat) (schedule : List Nat)
    (hcov : ∀ j, j ∈ schedule ↔ j < n) :
    schedule.foldl (completeTask r) (List.replicate n none)
      = (List.range n).map (fun i => some (r i)) := by
  apply List.ext_getElem?
  intro j
  rw [foldl_completeTask_getElem?, List.length_replicate]
  by_cases hj : j < n
  · rw [if_pos ⟨(hcov j).mpr hj, hj⟩, List.getElem?_map, List.getElem?_range hj]
    rfl
  · rw [if_neg (by exact fun h => hj h.2), List.getElem?_replicate, if_neg hj,
      List.getElem?_eq_none]
    simpa using Nat.le_of_not_lt hj

theorem sequenceOpt_map_some (f : α → β) :
    ∀ l : List α, sequenceOpt (l.map (fun a => some (f a))) = some (l.map f)
  | [] => rfl
  | a :: tl => by
    simp only [List.map_cons, sequenceOpt, sequenceOpt_map_some f tl, Option.map_some']

/-- Key order-independence fact: as long as every task completes exactly
once (in any order), the settled `Promise.all` array is the per-slot results
in slot order. -/
theorem runPromiseAll_perm (r : Nat → α) (n : Nat) (schedule : List Nat)
    (h : schedule.Perm (List.range n)) :
    runPromiseAll r n schedule = some ((List.range n).map r) := by
  unfold runPromiseAll
  rw [foldl_completeTask_eq_map r n schedule (fun j => by rw [h.mem_iff, List.mem_range])]
  exact sequenceOpt_map_some r (List.range n)

theorem map_range_getD [Inhabited α] (f : α → β) :
    ∀ l : List α,
      (List.range l.length).map (fun i => f (l.getD i default)) = l.map f
  | [] => rfl
  | a :: tl => by
    rw [List.length_cons, List.range_succ_eq_map, List.map_cons, List.map_map, List.map_cons]
    refine congrArg₂ _ (by simp) ?_
    calc (List.range tl.length).map ((fun i => f ((a :: tl).getD i default)) ∘ Nat.succ)
        = (List.range tl.length).map (fun i => f (tl.getD i default)) := by
          refine List.map_congr_left fun i _ => ?_
          simp [Function.comp, List.getD_cons_succ]
      _ = tl.map f := map_range_getD f tl

/-- Test whether a JSON value is an array of strings. -/
def isStringArray : Json → Bool
  | .arr es => es.all fun j => match j with | .str _ => true | _ => false
  | _ => false

/-- Look up a field of a JSON object field list by key. -/
def lookupField (fields : List (String × Json)) (k : String) : Option Json :=
  (fields.find? (fun p => p.1 == k)).map Prod.snd

/-- Modelled from the spec (section 3 and section 4.4): the four-field
analysis schema — a JSON object with a string `summary`, a string-array
`actionItems`, a `sentiment` among Positive/Negative/Neutral, and a string
`docType`. -/
def isFourFieldAnalysis : Json → Bool
  | .obj fields =>
    (match lookupField fields "summary" with
     | some (.str _) => true
     | _ => false) &&
    (match lookupField fields "actionItems" with
     | some a => isStringArray a
     | none => false) &&
    (match lookupField fields "sentiment" with
     | some (.str s) => s == "Positive" || s == "Negative" || s == "Neutral"
     | _ => false) &&
    (match lookupField fields "docType" with
     | some (.str _) => true
     | _ => false)
  | _ => false

/-- Modelled from the spec (section 6 and section 7): the intended status
and error body of `POST /fetch-emails` as a case analysis on the failure
kind; a `none` body stands for the success payload. -/
def specFetchStatusBody (st : Session) (q : Option String) (env : FetchEnv) :
    Nat × Option String :=
  match st.account with
  | none => (401, some "User not authenticated.")
  | some _ =>
    match env.tokenResult with
    | .error (.interactionRequired _) => (401, some "Session expired. Please log in again.")
    | .error (.other _) => (500, some "Error fetching or analyzing emails.")
    | .ok _ =>
      match env.fetchMail (buildMessagesRequest q) with
      | .error _ => (500, some "Error fetching or analyzing emails.")
      | .ok _ => (200, none)

/-- C2 (amended): `getGeminiAnalysis` never fails outward — on an upstream
call failure, or on a response whose cleaned text does not parse as JSON,
it returns the fixed fallback record; but a response that parses as valid
JSON is returned exactly as parsed, with no validation against the
four-field schema. -/
theorem getGeminiAnalysis_total_fallback (call : Except String String) :
    (getGeminiAnalysis call).1
      = (match call with
         | .error _ => fallbackAnalysis
         | .ok text =>
           match parseJson (cleanGeminiText text) with
           | some j => j
           | none => fallbackAnalysis) := by
  cases call with
  | error m => rfl
  | ok text =>
    simp only [getGeminiAnalysis, geminiTryBlock]
    cases parseJson (cleanGeminiText text) <;> rfl

/-- C2 counterexample: the upstream response text `\x7b\x7d` is valid JSON
that does not match the four-field schema, yet `getGeminiAnalysis` returns
the parsed empty object — not the fixed fallback record — so a schema
mismatch does not produce the fallback. -/
theorem getGeminiAnalysis_no_schema_validation :
    parseJson "\x7b\x7d" = some (Json.obj []) ∧
    (getGeminiAnalysis (Except.ok "\x7b\x7d")).1 = Json.obj [] ∧
    (getGeminiAnalysis (Except.ok "\x7b\x7d")).1 ≠ fallbackAnalysis ∧
    isFourFieldAnalysis (getGeminiAnalysis (Except.ok "\x7b\x7d")).1 = false ∧
    isFourFieldAnalysis fallbackAnalysis = true := by
  refine ⟨rfl, rfl, by decide, rfl, rfl⟩

/-- C4: a successful code exchange at `/redirect` stores the produced
account in the session, and a subsequent `/me` lookup returns exactly that
account with `loggedIn: true`. -/
theorem redirect_stores_identity (st : Session) (code : Option String) (r : AuthCodeResult) :
    ((redirectHandler st code (Except.ok r)).session).account = some r.account ∧
    (meHandler (redirectHandler st code (Except.ok r)).session).status = 200 ∧
    (meHandler (redirectHandler st code (Except.ok r)).session).body
      = ResponseBody.meJson true (some r.account) :=
  ⟨rfl, rfl, rfl⟩

/-- C6: a present, nonempty search filter is passed to the upstream query
as an opaque free-text clause: the clause is the filter text wrapped in
double quotes — so it contains the caller's text unmodified — and no other
part of the request depends on the filter. -/
theorem searchFilter_opaque_passthrough (q : String) (h : q ≠ "") :
    (buildMessagesRequest (some q)).search = some ("\"" ++ q ++ "\"") ∧
    (∃ l r, "\"" ++ q ++ "\"" = l ++ q ++ r) ∧
    (buildMessagesRequest (some q)).path = "/me/messages" ∧
    (buildMessagesRequest (some q)).select = "id,subject,from,receivedDateTime,body" ∧
    (buildMessagesRequest (some q)).top = 10 := by
  have hbase : buildMessagesRequest (some q)
      = { path := "/me/messages", select := "id,subject,from,receivedDateTime,body",
          top := 10, search := some ("\"" ++ q ++ "\"") } := by
    simp [buildMessagesRequest, h]
  rw [hbase]
  exact ⟨rfl, ⟨"\"", "\"", rfl⟩, rfl, rfl, rfl⟩

/-- C6 witness: the passthrough at the concrete filter `urgent`. -/
theorem searchFilter_opaque_passthrough_witness :
    (buildMessagesRequest (some "urgent")).search = some ("\"" ++ "urgent" ++ "\"") ∧
    (∃ l r, "\"" ++ "urgent" ++ "\"" = l ++ "urgent" ++ r) ∧
    (buildMessagesRequest (some "urgent")).path = "/me/messages" ∧
    (buildMessagesRequest (some "urgent")).select = "id,subject,from,receivedDateTime,body" ∧
    (buildMessagesRequest (some "urgent")).top = 10 :=
  searchFilter_opaque_passthrough "urgent" (by decide)

/-- C7: `/logout` is idempotent — a second call on the already-cleared
session leaves the (absent) identity unchanged and still returns 200 with
the same body; clearing a session with no identity is safe. -/
theorem logout_idempotent (st : Session) :
    (logoutHandler (logoutHandler st).session).session = (logoutHandler st).session ∧
    (logoutHandler st).session.account = none ∧
    (logoutHandler (logoutHandler st).session).status = 200 ∧
    (logoutHandler (logoutHandler st).session).body
      = ResponseBody.text "Successfully logged out" :=
  ⟨rfl, rfl, rfl, rfl⟩

/-- C8: `/me` always returns 200; with no stored identity the body is
`loggedIn: false` with no account record, and with a stored identity it is
`loggedIn: true` with exactly that account. -/
theorem me_reflects_session (st : Session) :
    (meHandler st).status = 200 ∧
    (meHandler st).body
      = (match st.account with
         | none => ResponseBody.meJson false none
         | some a => ResponseBody.meJson true (some a)) := by
  obtain ⟨a⟩ := st
  cases a <;> exact ⟨rfl, rfl⟩

/-- C1: on a successful fetch of N mail items, `POST /fetch-emails` returns
200 with exactly N enriched items in upstream fetch order; the
`Promise.all` fan-out settles to that same in-order list under every
completion schedule; and every item whose analysis call fails internally
carries the fixed fallback record. -/
theorem fetchEmails_enrichment_order (st : Session) (account : Account)
    (q : Option String) (env : FetchEnv) (messages : List MailItem)
    (schedule : List Nat)
    (hacct : st.account = some account)
    (htok : ∃ t, env.tokenResult = Except.ok t)
    (hmail : env.fetchMail (buildMessagesRequest q) = Except.ok messages)
    (hsched : schedule.Perm (List.range messages.length)) :
    (fetchEmailsHandler st q env).status = 200 ∧
    (fetchEmailsHandler st q env).body
      = ResponseBody.emailsJson (messages.map (fun e => (enrichEmail env.gemini e).1)) ∧
    (messages.map (fun e => (enrichEmail env.gemini e).1)).length = messages.length ∧
    runPromiseAll (fun i => (enrichEmail env.gemini (messages.getD i default)).1)
        messages.length schedule
      = some (messages.map (fun e => (enrichEmail env.gemini e).1)) ∧
    ∀ e ∈ messages, ∀ f, geminiTryBlock (env.gemini (contentToAnalyze e)) = Except.error f →
      (enrichEmail env.gemini e).1.analysis = fallbackAnalysis := by
  obtain ⟨t, ht⟩ := htok
  refine ⟨?_, ?_, List.length_map _ _, ?_, ?_⟩
  · simp [fetchEmailsHandler, hacct, ht, hmail]
  · simp [fetchEmailsHandler, hacct, ht, hmail, List.map_map, Function.comp]
  · rw [runPromiseAll_perm _ _ _ hsched]
    exact congrArg some (map_range_getD (fun e => (enrichEmail env.gemini e).1) messages)
  · intro e _ f hf
    simp [enrichEmail, getGeminiAnalysis, hf]

/-- Three sample mail items for the C1 witness, matching the spec's
three-item scenario. -/
def sampleMessages : List MailItem :=
  [{ id := "m1", subject := "RFI 12", «from» := "a@site.com",
     receivedDateTime := "2024-01-01T00:00:00Z",
     body := { content := "<p>Beam size?</p>" } },
   { id := "m2", subject := "Invoice 7", «from» := "b@site.com",
     receivedDateTime := "2024-01-02T00:00:00Z",
     body := { content := "<b>Pay now</b>" } },
   { id := "m3", subject := "Hello", «from» := "c@site.com",
     receivedDateTime := "2024-01-03T00:00:00Z",
     body := { content := "hi" } }]

/-- A well-formed Gemini response text used by the C1 witness. -/
def sampleAnalysisText : String :=
  "\x7b\"summary\": \"ok\", \"actionItems\": [], \"sentiment\": \"Positive\", \"docType\": \"RFI\"\x7d"

/-- A Gemini service for the C1 witness: the call for the second mail item
fails, the others succeed. -/
def sampleGemini (content : String) : Except String String :=
  if content = contentToAnalyze (sampleMessages.getD 1 default) then
    Except.error "network down"
  else
    Except.ok sampleAnalysisText

/-- A sample signed-in account for witnesses. -/
def sampleAccount : Account :=
  { homeAccountId := "u1.tenant", username := "alice@site.com", name := "Alice" }

/-- A concrete upstream environment for the C1 witness: the token call
succeeds and the unfiltered mail request returns the three sample items. -/
def sampleEnv : FetchEnv :=
  { tokenResult := Except.ok { accessToken := "tok-abc" },
    fetchMail := fun r => if r = buildMessagesRequest none then Except.ok sampleMessages
                          else Except.ok [],
    gemini := sampleGemini }

/-- C1 witness: the three-item scenario under completion schedule
`[2, 0, 1]` — analysis of item 2 fails, output is 3 items in fetch order
with the fallback record on the failed one. -/
theorem fetchEmails_enrichment_order_witness :
    (fetchEmailsHandler { account := some sampleAccount } none sampleEnv).status = 200 ∧
    (fetchEmailsHandler { account := some sampleAccount } none sampleEnv).body
      = ResponseBody.emailsJson
          (sampleMessages.map (fun e => (enrichEmail sampleEnv.gemini e).1)) ∧
    (sampleMessages.map (fun e => (enrichEmail sampleEnv.gemini e).1)).length
      = sampleMessages.length ∧
    runPromiseAll (fun i => (enrichEmail sampleEnv.gemini (sampleMessages.getD i default)).1)
        sampleMessages.length [2, 0, 1]
      = some (sampleMessages.map (fun e => (enrichEmail sampleEnv.gemini e).1)) ∧
    ∀ e ∈ sampleMessages, ∀ f,
      geminiTryBlock (sampleEnv.gemini (contentToAnalyze e)) = Except.error f →
      (enrichEmail sampleEnv.gemini e).1.analysis = fallbackAnalysis :=
  fetchEmails_enrichment_order { account := some sampleAccount } sampleAccount none sampleEnv
    sampleMessages [2, 0, 1] rfl ⟨{ accessToken := "tok-abc" }, rfl⟩ rfl (by decide)

/-- C3: the `POST /fetch-emails` error mapping agrees with the spec's case
analysis on the failure kind; a 401 is produced exactly when the request is
unauthenticated or silent renewal failed with an interaction-required
error; and the unauthenticated rejection happens before any outgoing
call. -/
theorem fetchEmails_error_mapping (st : Session) (q : Option String) (env : FetchEnv) :
    (fetchEmailsHandler st q env).status = (specFetchStatusBody st q env).1 ∧
    (match (specFetchStatusBody st q env).2 with
     | some t => (fetchEmailsHandler st q env).body = ResponseBody.text t
     | none => (fetchEmailsHandler st q env).status = 200) ∧
    ((fetchEmailsHandler st q env).status = 401
      ↔ (st.account = none ∨
          ∃ msg, env.tokenResult = Except.error (TokenError.interactionRequired msg))) ∧
    (match st.account with
     | none => (fetchEmailsHandler st q env).calls = []
     | some _ => True) := by
  obtain ⟨a⟩ := st
  cases a with
  | none => simp [fetchEmailsHandler, specFetchStatusBody]
  | some account =>
    cases ht : env.tokenResult with
    | error e =>
      cases e with
      | interactionRequired m =>
        simp [fetchEmailsHandler, specFetchStatusBody, ht, isInteractionRequiredError]
      | other m =>
        simp [fetchEmailsHandler, specFetchStatusBody, ht, isInteractionRequiredError]
    | ok t =>
      cases hm : env.fetchMail (buildMessagesRequest q) with
      | error e =>
        simp [fetchEmailsHandler, specFetchStatusBody, ht, hm, isInteractionRequiredError]
      | ok msgs =>
        simp [fetchEmailsHandler, specFetchStatusBody, ht, hm]

/-- C5: access-token confidentiality as a noninterference property — with
the same session and a fixed upstream environment, two `POST /fetch-emails`
runs whose silently-renewed tokens differ produce identical status, body,
session and log output (the token reaches only the outgoing Graph call);
and the `/redirect` handler's result does not depend on the exchange's
access token at all, so none of it reaches the session, body or logs. -/
theorem accessToken_confidentiality (st : Session) (q : Option String) (env : FetchEnv)
    (t1 t2 : String) (st2 : Session) (code : Option String) (a : Account)
    (atk1 atk2 : String) :
    ((fetchEmailsHandler st q { env with tokenResult := Except.ok { accessToken := t1 } }).status
       = (fetchEmailsHandler st q
           { env with tokenResult := Except.ok { accessToken := t2 } }).status ∧
     (fetchEmailsHandler st q { env with tokenResult := Except.ok { accessToken := t1 } }).body
       = (fetchEmailsHandler st q
           { env with tokenResult := Except.ok { accessToken := t2 } }).body ∧
     (fetchEmailsHandler st q { env with tokenResult := Except.ok { accessToken := t1 } }).session
       = (fetchEmailsHandler st q
           { env with tokenResult := Except.ok { accessToken := t2 } }).session ∧
     (fetchEmailsHandler st q { env with tokenResult := Except.ok { accessToken := t1 } }).logs
       = (fetchEmailsHandler st q
           { env with tokenResult := Except.ok { accessToken := t2 } }).logs) ∧
    redirectHandler st2 code (Except.ok { account := a, accessToken := atk1 })
      = redirectHandler st2 code (Except.ok { account := a, accessToken := atk2 }) := by
  constructor
  · obtain ⟨acc⟩ := st
    cases acc with
    | none => exact ⟨rfl, rfl, rfl, rfl⟩
    | some account =>
      simp only [fetchEmailsHandler]
      cases env.fetchMail (buildMessagesRequest q) <;> exact ⟨rfl, rfl, rfl, rfl⟩
  · rfl

/-- C9: `POST /fetch-emails` never modifies the session — on every
execution path the session after the handler equals the session before;
`/me` is likewise session-preserving. -/
theorem fetchEmails_session_frame (st : Session) (q : Option String) (env : FetchEnv) :
    (fetchEmailsHandler st q env).session = st ∧ (meHandler st).session = st := by
  constructor
  · obtain ⟨a⟩ := st
    cases a with
    | none => rfl
    | some account =>
      simp only [fetchEmailsHandler]
      cases env.tokenResult with
      | error e => cases e <;> rfl
      | ok t => cases env.fetchMail (buildMessagesRequest q) <;> rfl
  · obtain ⟨a⟩ := st
    cases a <;> rfl

/-- C10: a `POST /fetch-emails` request whose `searchQuery` is the empty
string behaves identically to one with no `searchQuery` at all — the
empty-string filter is falsy, so no search clause is added and the whole
handler result is the same. -/
theorem emptySearch_treated_absent (st : Session) (env : FetchEnv) :
    fetchEmailsHandler st (some "") env = fetchEmailsHandler st none env ∧
    buildMessagesRequest (some "") = buildMessagesRequest none ∧
    (buildMessagesRequest (some "")).search = none :=
  ⟨rfl, rfl, rfl⟩

end Backend
